import Mathlib

/-!
Verification development for the `aiomisc_pytest` TCP proxy
(`src/aiomisc_pytest.py`): the `Delay` timed-wait primitive, the
`TCPProxyClient` session with its forwarding loops, and the `TCPProxy`
listener with live configuration propagation.

Python values are embedded shallowly: numeric timeouts become `Rat`,
byte chunks become `List Nat`, asyncio futures become an explicit
`FutureState`, and control flow of the async loops becomes event traces.
-/

namespace AiomiscPytest

/-- State of an asyncio future as observed by the `Delay` code:
either still pending or already resolved (`done()`). -/
inductive FutureState
  | pending
  | done
deriving DecidableEq

/-- A Python value passed to `Delay.timeout`; the setter asserts
`isinstance(value, (int, float))`, so the embedding distinguishes a
numeric value (`num`) from any non-numeric one (`nonNum`). -/
inductive PyValue
  | num (q : Rat)
  | nonNum
deriving DecidableEq

/-- Whether `assert isinstance(value, (int, float))` and
`assert value >= 0` both pass for this value. -/
def PyValue.valid : PyValue → Bool
  | PyValue.num q => decide (0 ≤ q)
  | PyValue.nonNum => false

/-- The `Delay` object of `aiomisc_pytest.py`: `__timeout` and the
optional outstanding wait future `self.future` (its `asyncio.Lock` has
no persistent state to record: at most one wait is in flight). -/
structure Delay where
  timeout : Rat
  future : Option FutureState
deriving DecidableEq

/-- `Delay.__init__`: timeout `0`, no outstanding future. -/
def Delay.init : Delay := { timeout := 0, future := none }

/-- Embeds `if self.future and not self.future.done():
self.future.set_result(True)` — a pending outstanding future is resolved,
anything else is left alone. -/
def Delay.preempt : Option FutureState → Option FutureState
  | some FutureState.pending => some FutureState.done
  | f => f

/-- The `Delay.timeout` setter. The two `assert` statements run before
any mutation, so on failure the returned state is the unchanged input
paired with the error message; on success the stored timeout is updated
and an outstanding pending wait future is resolved. -/
def Delay.setTimeoutImpl (d : Delay) (v : PyValue) : Delay × Option String :=
  match v with
  | PyValue.nonNum => (d, some "AssertionError: isinstance(value, (int, float))")
  | PyValue.num q =>
    if q < 0 then (d, some "AssertionError: value >= 0")
    else ({ timeout := q, future := Delay.preempt d.future }, none)

/-- The `Delay.timeout` setter as a fallible state transformer, used by
the proxy-level operations that assign `client.read_delay.timeout`. -/
def Delay.setTimeout (d : Delay) (v : PyValue) : Except String Delay :=
  match d.setTimeoutImpl v with
  | (_, some e) => Except.error e
  | (d2, none) => Except.ok d2

/-- Suspension/bookkeeping events performed by `Delay.wait`. -/
inductive WaitEv
  | lockAcquire
  | futureCreate
  | futureAwait
  | futureClear
  | lockRelease
deriving DecidableEq

/-- Control flow of `Delay.wait`: `if self.__timeout == 0: return` is the
fast path with no events at all; otherwise the lock is taken, a delayed
future is created and awaited, and the `finally` clears it before the
lock is released. -/
def Delay.waitTrace (d : Delay) : List WaitEv :=
  if d.timeout = 0 then []
  else [WaitEv.lockAcquire, WaitEv.futureCreate, WaitEv.futureAwait,
        WaitEv.futureClear, WaitEv.lockRelease]

/-- A byte chunk returned by `reader.read(chunk_size)`. -/
abbrev Chunk := List Nat

/-- Events of one forwarding loop (`TCPProxyClient.pipe`): a read from
the source, the optional delay wait, a write of the processed chunk to
the destination, the optional drain, and the destination close performed
by the `finally` block via `_close_writer`. -/
inductive Ev
  | read (c : Chunk)
  | delayWait
  | write (c : Chunk)
  | drain
  | closeWriter
deriving DecidableEq

/-- Static configuration of one `pipe` invocation: the direction's
`Delay`, the resolved `self.__processors[processor]` function, and the
proxy's `buffered` flag. -/
structure PipeCfg where
  buffered : Bool
  delay : Delay
  proc : Chunk → Chunk

/-- The body of one loop iteration of `pipe` for a non-empty chunk:
read, then `await delay.wait()` only when `delay.timeout > 0`, then
write the processed chunk, then `await writer.drain()` only when the
proxy is unbuffered. -/
def iterSteps (cfg : PipeCfg) (c : Chunk) : List Ev :=
  [Ev.read c]
    ++ (if 0 < cfg.delay.timeout then [Ev.delayWait] else [])
    ++ [Ev.write (cfg.proc c)]
    ++ (if cfg.buffered then [] else [Ev.drain])

/-- The `while not reader.at_eof()` loop of `pipe`, with the source
stream embedded as the list of successive values of `reader.read`:
an empty chunk is read and then breaks the loop (`if not chunk: break`);
end of the list is `at_eof()`. -/
def pipeBodyEvents (cfg : PipeCfg) : List Chunk → List Ev
  | [] => []
  | c :: rest =>
    if c.isEmpty then [Ev.read c]
    else iterSteps cfg c ++ pipeBodyEvents cfg rest

/-- A full run of `pipe` under the `try`/`finally`: `interrupt = some k`
means a cancellation or error fires after `k` events of the loop body
(the remaining body events never happen and the exception propagates,
flag `true`), `none` means the body runs to completion. In every case
the `finally` closes the destination writer before the function exits. -/
def pipeRun (cfg : PipeCfg) (chunks : List Chunk) (interrupt : Option Nat) :
    List Ev × Bool :=
  let body := pipeBodyEvents cfg chunks
  match interrupt with
  | none => (body ++ [Ev.closeWriter], false)
  | some k =>
    if k < body.length then (body.take k ++ [Ev.closeWriter], true)
    else (body ++ [Ev.closeWriter], false)

/-- The chunks written by a trace, in order. -/
def writesOf (evs : List Ev) : List Chunk :=
  evs.filterMap fun e =>
    match e with
    | Ev.write c => some c
    | _ => none

/-- Whether an event is a source read or a destination write. -/
def Ev.isRW : Ev → Bool
  | Ev.read _ => true
  | Ev.write _ => true
  | _ => false

/-- The read/write skeleton of a trace. -/
def rwOf (evs : List Ev) : List Ev := evs.filter Ev.isRW

/-- Spec-side characterisation, for the FIFO refinement claim, of
strict per-direction FIFO forwarding: each non-empty chunk is read and
its processed form written before the next chunk is read; an empty read
ends the stream. Written from the spec's ordering guarantee, to be
compared with the trace of `pipeBodyEvents`. -/
def fifoSpecRW (proc : Chunk → Chunk) : List Chunk → List Ev
  | [] => []
  | c :: rest =>
    if c.isEmpty then [Ev.read c]
    else Ev.read c :: Ev.write (proc c) :: fifoSpecRW proc rest

/-- A per-direction processor as stored in the client's `__processors`
dict: either the default `_blank_processor` or a user-supplied function,
identified abstractly by a number (`aiomisc.awaitable` wraps the
function but preserves which function it is). -/
inductive ClientProc
  | blank
  | custom (n : Nat)
deriving DecidableEq

/-- How a proxy-level `Optional[ProxyProcessorType]` lands in a client:
`None` installs `_blank_processor`, a function installs itself. -/
def ClientProc.ofOpt : Option Nat → ClientProc
  | none => ClientProc.blank
  | some n => ClientProc.custom n

/-- The `TCPProxyClient` session state: its two per-direction `Delay`
objects, the `__processors` dict (fields `readProc`/`writeProc`), the
`closing` future (`closingDone`), the `buffered` flag and the fixed
chunk size. The model adds `id` to track identity inside the proxy's
client set, `connected` for a successful upstream `connect`, and
`removeCallback` for whether `closing.add_done_callback` registered the
removal callback. -/
structure TCPProxyClient where
  id : Nat
  chunkSize : Nat := 64 * 1024
  readDelay : Delay := Delay.init
  writeDelay : Delay := Delay.init
  readProc : ClientProc := ClientProc.blank
  writeProc : ClientProc := ClientProc.blank
  closingDone : Bool := false
  connected : Bool := false
  removeCallback : Bool := false
  buffered : Bool := false
deriving DecidableEq

/-- `TCPProxyClient.__init__`: fresh delays, blank processors in both
directions, pending `closing` future, no upstream connection yet. -/
def TCPProxyClient.new (cid : Nat) (buffered : Bool) : TCPProxyClient :=
  { id := cid, buffered := buffered }

/-- The `read_processor` setter: `None` restores `_blank_processor`,
otherwise `aiomisc.awaitable(value)` is stored. -/
def TCPProxyClient.setReadProcessor (c : TCPProxyClient) (v : Option Nat) :
    TCPProxyClient :=
  match v with
  | none => { c with readProc := ClientProc.blank }
  | some n => { c with readProc := ClientProc.custom n }

/-- The `write_processor` setter, symmetric to the read one. -/
def TCPProxyClient.setWriteProcessor (c : TCPProxyClient) (v : Option Nat) :
    TCPProxyClient :=
  match v with
  | none => { c with writeProc := ClientProc.blank }
  | some n => { c with writeProc := ClientProc.custom n }

/-- Steps performed by `TCPProxyClient.close` when it actually runs. -/
inductive CloseEv
  | cancelTasks
  | markClosed
deriving DecidableEq

/-- Modelled from the spec: `aiomisc.cancel_tasks` is library code not
under `src/`; per the spec it requests cancellation of both
forwarding-loop tasks and awaits their actual termination, suppressing
cancellation-induced errors. It is modelled as the single atomic close
step `CloseEv.cancelTasks`. -/
def cancelTasksStep : CloseEv := CloseEv.cancelTasks

/-- `TCPProxyClient.close`: returns immediately when `self.closing` is
already done; otherwise cancels and awaits both pipe tasks, then
resolves `closing` (via `call_soon` + `await self.closing`, so the
session is marked closed when `close` returns). The returned trace
records the steps in order. -/
def TCPProxyClient.close (c : TCPProxyClient) : TCPProxyClient × List CloseEv :=
  if c.closingDone then (c, [])
  else ({ c with closingDone := true }, [cancelTasksStep, CloseEv.markClosed])

/-- The `TCPProxy` state: target and listen addresses, the default
per-direction delays and processors, the `buffered` flag and the set of
active clients (embedded as a list; the claims are insensitive to set
order). -/
structure TCPProxy where
  targetHost : String
  targetPort : Nat
  proxyHost : String := "127.0.0.1"
  proxyPort : Nat := 0
  readDelay : Rat := 0
  writeDelay : Rat := 0
  readProcessor : Option Nat := none
  writeProcessor : Option Nat := none
  buffered : Bool := true
  clients : List TCPProxyClient := []

/-- The `for client in self.clients` loop of `TCPProxy.set_delay`:
assigns `client.read_delay.timeout` then `client.write_delay.timeout`
through the validating `Delay` setter, propagating the first assertion
failure. -/
def setDelayClients (rd wd : Rat) :
    List TCPProxyClient → Except String (List TCPProxyClient)
  | [] => Except.ok []
  | c :: rest =>
    match c.readDelay.setTimeout (PyValue.num rd) with
    | Except.error e => Except.error e
    | Except.ok rdly =>
      match c.writeDelay.setTimeout (PyValue.num wd) with
      | Except.error e => Except.error e
      | Except.ok wdly =>
        match setDelayClients rd wd rest with
        | Except.error e => Except.error e
        | Except.ok rest2 =>
          Except.ok ({ c with readDelay := rdly, writeDelay := wdly } :: rest2)

/-- `TCPProxy.set_delay`: first overwrites the delay timeouts of every
currently active client, then updates the proxy's own defaults. -/
def TCPProxy.set_delay (p : TCPProxy) (rd wd : Rat) : Except String TCPProxy :=
  match setDelayClients rd wd p.clients with
  | Except.error e => Except.error e
  | Except.ok cs =>
    Except.ok { p with clients := cs, readDelay := rd, writeDelay := wd }

/-- `TCPProxy.set_content_processors`: assigns `client.read_processor`
and `client.write_processor` for every currently active client, then
updates the proxy's own defaults. -/
def TCPProxy.set_content_processors (p : TCPProxy) (r w : Option Nat) :
    TCPProxy :=
  { p with
    clients := p.clients.map fun c => (c.setReadProcessor r).setWriteProcessor w,
    readProcessor := r, writeProcessor := w }

/-- `TCPProxy.disconnect_all`: `asyncio.gather` over `client.close()`
for every active client with `return_exceptions=True`, wrapped in
`ensure_future`. `failAt` injects an exception into a given client's
close; the returned list is the gathered per-client outcome list (the
value of the returned future once every close has finished), and the
proxy state reflects every non-failing close having completed. -/
def TCPProxy.disconnect_all (p : TCPProxy) (failAt : Nat → Bool) :
    TCPProxy × List (Except String Unit) :=
  let pairs := p.clients.map fun c =>
    if failAt c.id then (c, (Except.error "Exception" : Except String Unit))
    else ((TCPProxyClient.close c).1, Except.ok ())
  ({ p with clients := pairs.map Prod.fst }, pairs.map Prod.snd)

/-- `TCPProxy._handle_client`: builds a fresh `TCPProxyClient` with the
proxy's `buffered` flag, adds it to `self.clients`, seeds its delay
timeouts and processors from the proxy's current defaults, then awaits
the upstream `connect` (outcome `connectOk`); only after a successful
connect is the `closing.add_done_callback` removal callback registered.
The returned `Option String` is the exception escaping the handler; in
every outcome the client stays in `clients` exactly as the handler left
it. -/
def TCPProxy.handle_client (p : TCPProxy) (cid : Nat) (connectOk : Bool) :
    TCPProxy × Option String :=
  let c := TCPProxyClient.new cid p.buffered
  match c.readDelay.setTimeout (PyValue.num p.readDelay) with
  | Except.error e => ({ p with clients := p.clients ++ [c] }, some e)
  | Except.ok rdly =>
    let c1 := { c with readDelay := rdly }
    match c1.writeDelay.setTimeout (PyValue.num p.writeDelay) with
    | Except.error e => ({ p with clients := p.clients ++ [c1] }, some e)
    | Except.ok wdly =>
      let c2 := (({ c1 with writeDelay := wdly
                  }.setReadProcessor p.readProcessor
                  ).setWriteProcessor p.writeProcessor)
      if connectOk then
        ({ p with clients :=
            p.clients ++ [{ c2 with connected := true, removeCallback := true }] },
         none)
      else
        ({ p with clients := p.clients ++ [c2] }, some "ConnectionError")

/-- `TCPProxy.slowdown`: a context manager that records the current
default delays, applies the new ones via `set_delay`, runs the block
(outcome `blockFails`), and in its `finally` restores the recorded
defaults via `set_delay` regardless of how the block exited. Returns
the state during the block, the state after restoration, and whether
the block's exception propagates onward. -/
def TCPProxy.slowdown (p : TCPProxy) (rd wd : Rat) (blockFails : Bool) :
    Except String (TCPProxy × TCPProxy × Bool) :=
  match p.set_delay rd wd with
  | Except.error e => Except.error e
  | Except.ok during =>
    match during.set_delay p.readDelay p.writeDelay with
    | Except.error e => Except.error e
    | Except.ok after => Except.ok (during, after, blockFails)

/-- Resolving a given client's `closing` future via its own `close()`:
the proxy set is untouched (nothing in `close` removes the client). -/
def TCPProxy.closeClient (p : TCPProxy) (cid : Nat) : TCPProxy :=
  { p with clients := p.clients.map fun c =>
      if c.id = cid then (TCPProxyClient.close c).1 else c }

/-- Firing the `closing` done callbacks: the removal callback registered
by `_handle_client` removes its client from the set, but only for
clients on which it was actually registered. -/
def TCPProxy.runDoneCallbacks (p : TCPProxy) : TCPProxy :=
  { p with clients := p.clients.filter fun c =>
      !(c.closingDone && c.removeCallback) }

/-! ### Helper lemmas -/

theorem Delay.setTimeout_nonneg (d : Delay) (q : Rat) (hq : 0 ≤ q) :
    d.setTimeout (PyValue.num q) =
      Except.ok { timeout := q, future := Delay.preempt d.future } := by
  simp [Delay.setTimeout, Delay.setTimeoutImpl, not_lt.mpr hq]

/-- The per-client update performed by a successful `set_delay`. -/
def updClientDelays (rd wd : Rat) (c : TCPProxyClient) : TCPProxyClient :=
  { c with readDelay := { timeout := rd, future := Delay.preempt c.readDelay.future },
           writeDelay := { timeout := wd, future := Delay.preempt c.writeDelay.future } }

theorem setDelayClients_nonneg (rd wd : Rat) (hr : 0 ≤ rd) (hw : 0 ≤ wd) :
    ∀ l : List TCPProxyClient,
      setDelayClients rd wd l = Except.ok (l.map (updClientDelays rd wd))
  | [] => by simp [setDelayClients]
  | c :: rest => by
    simp [setDelayClients, Delay.setTimeout_nonneg _ _ hr,
      Delay.setTimeout_nonneg _ _ hw,
      setDelayClients_nonneg rd wd hr hw rest, updClientDelays]

theorem set_delay_nonneg (p : TCPProxy) (rd wd : Rat) (hr : 0 ≤ rd) (hw : 0 ≤ wd) :
    p.set_delay rd wd =
      Except.ok { p with clients := p.clients.map (updClientDelays rd wd),
                         readDelay := rd, writeDelay := wd } := by
  simp [TCPProxy.set_delay, setDelayClients_nonneg rd wd hr hw]

theorem writesOf_append (a b : List Ev) :
    writesOf (a ++ b) = writesOf a ++ writesOf b := by
  simp [writesOf, List.filterMap_append]

theorem writesOf_iterSteps (cfg : PipeCfg) (c : Chunk) :
    writesOf (iterSteps cfg c) = [cfg.proc c] := by
  simp [iterSteps, writesOf, List.filterMap_append]
  split <;> split <;> simp

theorem closeWriter_not_mem_iterSteps (cfg : PipeCfg) (c : Chunk) :
    Ev.closeWriter ∉ iterSteps cfg c := by
  simp [iterSteps]

theorem pipeBodyEvents_cons_of_ne (cfg : PipeCfg) (c : Chunk) (rest : List Chunk)
    (hc : ¬c.isEmpty = true) :
    pipeBodyEvents cfg (c :: rest) = iterSteps cfg c ++ pipeBodyEvents cfg rest := by
  simp [pipeBodyEvents, hc]

/-- The proxy state produced by a successful `set_delay`. -/
def TCPProxy.setDelayResult (p : TCPProxy) (rd wd : Rat) : TCPProxy :=
  { p with clients := p.clients.map (updClientDelays rd wd),
           readDelay := rd, writeDelay := wd }

theorem set_delay_eq_result (p : TCPProxy) (rd wd : Rat)
    (hr : 0 ≤ rd) (hw : 0 ≤ wd) :
    p.set_delay rd wd = Except.ok (p.setDelayResult rd wd) :=
  set_delay_nonneg p rd wd hr hw

theorem closeWriter_not_mem_pipeBodyEvents (cfg : PipeCfg) :
    ∀ chunks : List Chunk, Ev.closeWriter ∉ pipeBodyEvents cfg chunks
  | [] => by simp [pipeBodyEvents]
  | c :: rest => by
    by_cases hc : c.isEmpty
    · simp [pipeBodyEvents, hc]
    · rw [pipeBodyEvents_cons_of_ne cfg c rest hc]
      rw [List.mem_append]
      rintro (h | h)
      · exact closeWriter_not_mem_iterSteps cfg c h
      · exact closeWriter_not_mem_pipeBodyEvents cfg rest h

theorem writesOf_pipeBodyEvents (cfg : PipeCfg) :
    ∀ chunks : List Chunk,
      writesOf (pipeBodyEvents cfg chunks) =
        (chunks.takeWhile fun c => !c.isEmpty).map cfg.proc
  | [] => by simp [pipeBodyEvents, writesOf]
  | c :: rest => by
    by_cases hc : c.isEmpty
    · simp [pipeBodyEvents, hc, writesOf, List.takeWhile]
    · rw [pipeBodyEvents_cons_of_ne cfg c rest hc, writesOf_append,
        writesOf_iterSteps, writesOf_pipeBodyEvents cfg rest]
      simp [List.takeWhile_cons, hc]

theorem delayWait_not_mem_pipeBodyEvents (cfg : PipeCfg)
    (h : cfg.delay.timeout = 0) :
    ∀ chunks : List Chunk, Ev.delayWait ∉ pipeBodyEvents cfg chunks
  | [] => by simp [pipeBodyEvents]
  | c :: rest => by
    by_cases hc : c.isEmpty
    · simp [pipeBodyEvents, hc]
    · rw [pipeBodyEvents_cons_of_ne cfg c rest hc, List.mem_append]
      rintro (hm | hm)
      · revert hm; simp [iterSteps, h]
      · exact delayWait_not_mem_pipeBodyEvents cfg h rest hm

theorem rwOf_append (a b : List Ev) : rwOf (a ++ b) = rwOf a ++ rwOf b := by
  simp [rwOf, List.filter_append]

theorem rwOf_iterSteps (cfg : PipeCfg) (c : Chunk) :
    rwOf (iterSteps cfg c) = [Ev.read c, Ev.write (cfg.proc c)] := by
  simp [iterSteps, rwOf, List.filter_append]
  split <;> split <;> simp [Ev.isRW]

theorem close_fst_id (c : TCPProxyClient) :
    (TCPProxyClient.close c).1.id = c.id := by
  by_cases h : c.closingDone <;> simp [TCPProxyClient.close, h]

theorem close_fst_closingDone (c : TCPProxyClient) :
    (TCPProxyClient.close c).1.closingDone = true := by
  by_cases h : c.closingDone <;> simp [TCPProxyClient.close, h]

theorem close_fst_removeCallback (c : TCPProxyClient) :
    (TCPProxyClient.close c).1.removeCallback = c.removeCallback := by
  by_cases h : c.closingDone <;> simp [TCPProxyClient.close, h]

/-! ### Claim theorems -/

/-- C1: setting a `Delay`'s timeout to a negative or non-numeric value
raises a validation error with the stored state unchanged (the asserts
run before any mutation); setting it to a non-negative number updates
the stored timeout and, when a wait is outstanding (its future exists
and is pending), resolves that future immediately, preempting the
in-flight sleep; with no outstanding wait the future field is left
untouched. -/
theorem delay_timeout_setter_validates_and_preempts (d : Delay) (v : PyValue) :
    (v.valid = false →
      (d.setTimeoutImpl v).1 = d ∧ (d.setTimeoutImpl v).2 ≠ none) ∧
    (∀ q : Rat, v = PyValue.num q → 0 ≤ q →
      (d.setTimeoutImpl v).2 = none ∧
      (d.setTimeoutImpl v).1.timeout = q ∧
      (d.future = some FutureState.pending →
        (d.setTimeoutImpl v).1.future = some FutureState.done) ∧
      (d.future ≠ some FutureState.pending →
        (d.setTimeoutImpl v).1.future = d.future)) := by
  constructor
  · intro hv
    cases v with
    | nonNum => simp [Delay.setTimeoutImpl]
    | num q =>
      simp only [PyValue.valid, decide_eq_false_iff_not, not_le] at hv
      simp [Delay.setTimeoutImpl, hv]
  · rintro q rfl hq
    refine ⟨by simp [Delay.setTimeoutImpl, not_lt.mpr hq], ?_, ?_, ?_⟩
    · simp [Delay.setTimeoutImpl, not_lt.mpr hq]
    · intro hf
      simp [Delay.setTimeoutImpl, not_lt.mpr hq, hf, Delay.preempt]
    · intro hf
      simp only [Delay.setTimeoutImpl, not_lt.mpr hq, if_false]
      cases hfut : d.future with
      | none => simp [Delay.preempt]
      | some s => cases s <;> simp_all [Delay.preempt]

/-- Witness for C1 at concrete inputs: a pending wait is preempted by a
valid update, and a non-numeric update leaves the delay unchanged. -/
theorem delay_timeout_setter_validates_and_preempts_witness :
    ((Delay.mk 3 (some FutureState.pending)).setTimeoutImpl
        (PyValue.num 5)).1.timeout = 5 ∧
    ((Delay.mk 3 (some FutureState.pending)).setTimeoutImpl
        (PyValue.num 5)).1.future = some FutureState.done ∧
    ((Delay.mk 2 none).setTimeoutImpl PyValue.nonNum).1 = Delay.mk 2 none :=
  ⟨((delay_timeout_setter_validates_and_preempts
      (Delay.mk 3 (some FutureState.pending)) (PyValue.num 5)).2 5 rfl
      (by norm_num)).2.1,
   ((delay_timeout_setter_validates_and_preempts
      (Delay.mk 3 (some FutureState.pending)) (PyValue.num 5)).2 5 rfl
      (by norm_num)).2.2.1 rfl,
   ((delay_timeout_setter_validates_and_preempts
      (Delay.mk 2 none) PyValue.nonNum).1 rfl).1⟩

/-- C3: `TCPProxyClient.close` is idempotent: when the closing future
is already done the call returns with no events and no state change;
calling close right after a close is always a no-op; and a first close
on an open session cancels the pipe tasks before marking the session
closed, in that order. -/
theorem client_close_idempotent (c : TCPProxyClient) :
    (c.closingDone = true → c.close = (c, [])) ∧
    (c.close.1.close = (c.close.1, [])) ∧
    (c.closingDone = false →
      c.close.1.closingDone = true ∧
      c.close.2 = [CloseEv.cancelTasks, CloseEv.markClosed]) := by
  refine ⟨?_, ?_, ?_⟩
  · intro h; simp [TCPProxyClient.close, h]
  · by_cases h : c.closingDone <;>
      simp [TCPProxyClient.close, h, cancelTasksStep]
  · intro h; simp [TCPProxyClient.close, h, cancelTasksStep]

/-- Witness for C3 at a concrete session: the fresh session closes with
the cancel-then-mark trace and a second close is a no-op. -/
theorem client_close_idempotent_witness :
    ((TCPProxyClient.new 7 false).close.1.close
        = ((TCPProxyClient.new 7 false).close.1, [])) ∧
    ((TCPProxyClient.new 7 false).close.1.closingDone = true ∧
     (TCPProxyClient.new 7 false).close.2
        = [CloseEv.cancelTasks, CloseEv.markClosed]) :=
  ⟨(client_close_idempotent (TCPProxyClient.new 7 false)).2.1,
   (client_close_idempotent (TCPProxyClient.new 7 false)).2.2 rfl⟩

/-- C4: when a `Delay`'s timeout is zero, `wait()` returns at once with
no lock acquisition, no future creation and no suspension (empty event
trace); and a forwarding loop whose direction delay has timeout zero
never performs a delay wait while still forwarding every chunk in
order. -/
theorem delay_zero_fast_path (d : Delay) (cfg : PipeCfg) (chunks : List Chunk) :
    (d.timeout = 0 → d.waitTrace = []) ∧
    (cfg.delay.timeout = 0 →
      Ev.delayWait ∉ pipeBodyEvents cfg chunks ∧
      writesOf (pipeBodyEvents cfg chunks) =
        (chunks.takeWhile fun c => !c.isEmpty).map cfg.proc) := by
  constructor
  · intro h; simp [Delay.waitTrace, h]
  · intro h
    exact ⟨delayWait_not_mem_pipeBodyEvents cfg h chunks,
      writesOf_pipeBodyEvents cfg chunks⟩

/-- Configuration of a forwarding loop with a zero-timeout delay and the
identity processor, used for the C4 witness. -/
def cfgZero : PipeCfg :=
  { buffered := true, delay := Delay.init, proc := fun c => c }

/-- Witness for C4 at a concrete zero-delay configuration and stream. -/
theorem delay_zero_fast_path_witness :
    Delay.init.waitTrace = [] ∧
    Ev.delayWait ∉ pipeBodyEvents cfgZero [[1], [2]] :=
  ⟨(delay_zero_fast_path Delay.init cfgZero [[1], [2]]).1 rfl,
   ((delay_zero_fast_path Delay.init cfgZero [[1], [2]]).2 rfl).1⟩

/-- C6: whatever the source stream and however the loop body exits —
normal end-of-stream, an empty read, or a cancellation/error injected
after any number of body events — the trace of a full `pipe` run ends
with the destination-writer close, which therefore runs exactly once,
after all executed body events and before any exception propagates. -/
theorem pipe_closes_writer_on_every_exit (cfg : PipeCfg) (chunks : List Chunk)
    (interrupt : Option Nat) :
    ∃ body : List Ev,
      (pipeRun cfg chunks interrupt).1 = body ++ [Ev.closeWriter] ∧
      Ev.closeWriter ∉ body := by
  cases interrupt with
  | none =>
    exact ⟨pipeBodyEvents cfg chunks, rfl,
      closeWriter_not_mem_pipeBodyEvents cfg chunks⟩
  | some k =>
    by_cases hk : k < (pipeBodyEvents cfg chunks).length
    · refine ⟨(pipeBodyEvents cfg chunks).take k, by simp [pipeRun, hk], ?_⟩
      intro hm
      exact closeWriter_not_mem_pipeBodyEvents cfg chunks
        (List.mem_of_mem_take hm)
    · exact ⟨pipeBodyEvents cfg chunks, by simp [pipeRun, hk],
        closeWriter_not_mem_pipeBodyEvents cfg chunks⟩

/-- C9: the read/write skeleton of a forwarding-loop trace is exactly
the strict per-direction FIFO interleaving: each non-empty chunk's
processed write is issued before the next read, and the written chunks
are the read chunks, processed, in identical order. -/
theorem pipe_fifo_order (cfg : PipeCfg) (chunks : List Chunk) :
    rwOf (pipeBodyEvents cfg chunks) = fifoSpecRW cfg.proc chunks ∧
    writesOf (pipeBodyEvents cfg chunks) =
      (chunks.takeWhile fun c => !c.isEmpty).map cfg.proc := by
  refine ⟨?_, writesOf_pipeBodyEvents cfg chunks⟩
  induction chunks with
  | nil => simp [pipeBodyEvents, rwOf, fifoSpecRW]
  | cons c rest ih =>
    by_cases hc : c.isEmpty
    · simp [pipeBodyEvents, hc, rwOf, fifoSpecRW, Ev.isRW]
    · rw [pipeBodyEvents_cons_of_ne cfg c rest hc, rwOf_append,
        rwOf_iterSteps, ih]
      simp [fifoSpecRW, hc]

/-- A session whose read processor was explicitly overridden (to the
function identified as `7`) after its creation. -/
def overriddenClient : TCPProxyClient :=
  (TCPProxyClient.new 0 true).setReadProcessor (some 7)

/-- A proxy whose only active session carries the explicit override. -/
def overrideProxy : TCPProxy :=
  { targetHost := "127.0.0.1", targetPort := 8080,
    clients := [overriddenClient] }

/-- C2 counterexample: a session explicitly overrode its read processor
to the function `7`, yet a subsequent proxy-level
`set_content_processors` call replaces it with the new proxy-level
function `9` — the override does not win over later proxy-level
changes. -/
theorem set_content_processors_override_lost :
    (overrideProxy.set_content_processors (some 9) (some 9)).clients.map
        TCPProxyClient.readProc = [ClientProc.custom 9] ∧
    ClientProc.custom 9 ≠ ClientProc.custom 7 := by
  decide

/-- C2 (amended): a proxy-level `set_content_processors` call replaces
the per-direction processors of every active session, including
sessions whose processors were explicitly overridden beforehand — an
override wins only over proxy-level changes made before it, not after —
and the proxy's default processors are updated to the new values. -/
theorem set_content_processors_replaces_all (p : TCPProxy) (r w : Option Nat)
    (c : TCPProxyClient)
    (hc : c ∈ (p.set_content_processors r w).clients) :
    c.readProc = ClientProc.ofOpt r ∧ c.writeProc = ClientProc.ofOpt w ∧
    (p.set_content_processors r w).readProcessor = r ∧
    (p.set_content_processors r w).writeProcessor = w := by
  simp only [TCPProxy.set_content_processors, List.mem_map] at hc
  obtain ⟨c0, -, rfl⟩ := hc
  refine ⟨?_, ?_, rfl, rfl⟩ <;>
    cases r <;> cases w <;>
      simp [TCPProxyClient.setReadProcessor, TCPProxyClient.setWriteProcessor,
        ClientProc.ofOpt]

/-- Witness for the amended C2 at the concrete override scenario. -/
theorem set_content_processors_replaces_all_witness :
    ((overriddenClient.setReadProcessor (some 9)).setWriteProcessor
        (some 9)).readProc = ClientProc.ofOpt (some 9) :=
  (set_content_processors_replaces_all overrideProxy (some 9) (some 9)
    ((overriddenClient.setReadProcessor (some 9)).setWriteProcessor (some 9))
    (by decide)).1

/-- The configured session `_handle_client` has built right before it
awaits the upstream `connect`: fresh client, delay timeouts seeded from
the proxy defaults, processors seeded from the proxy defaults. -/
def seededClient (p : TCPProxy) (cid : Nat) : TCPProxyClient :=
  ((({ TCPProxyClient.new cid p.buffered with
        readDelay := { timeout := p.readDelay, future := none },
        writeDelay := { timeout := p.writeDelay, future := none }
      }).setReadProcessor p.readProcessor).setWriteProcessor
        p.writeProcessor)

theorem seededClient_fields (p : TCPProxy) (cid : Nat) :
    (seededClient p cid).id = cid ∧
    (seededClient p cid).readDelay.timeout = p.readDelay ∧
    (seededClient p cid).writeDelay.timeout = p.writeDelay ∧
    (seededClient p cid).readProc = ClientProc.ofOpt p.readProcessor ∧
    (seededClient p cid).writeProc = ClientProc.ofOpt p.writeProcessor ∧
    (seededClient p cid).closingDone = false ∧
    (seededClient p cid).removeCallback = false := by
  cases hr : p.readProcessor <;> cases hw : p.writeProcessor <;>
    simp [seededClient, TCPProxyClient.new, hr, hw, ClientProc.ofOpt,
      TCPProxyClient.setReadProcessor, TCPProxyClient.setWriteProcessor]

/-- The session state right after a successful upstream `connect` and
registration of the removal done-callback. -/
def connectedClient (p : TCPProxy) (cid : Nat) : TCPProxyClient :=
  { seededClient p cid with connected := true, removeCallback := true }

theorem handle_client_eq (p : TCPProxy) (cid : Nat) (connectOk : Bool)
    (h1 : 0 ≤ p.readDelay) (h2 : 0 ≤ p.writeDelay) :
    p.handle_client cid connectOk =
      if connectOk then
        ({ p with clients := p.clients ++ [connectedClient p cid] }, none)
      else
        ({ p with clients := p.clients ++ [seededClient p cid] },
         some "ConnectionError") := by
  have hr := Delay.setTimeout_nonneg Delay.init p.readDelay h1
  have hw := Delay.setTimeout_nonneg Delay.init p.writeDelay h2
  simp only [Delay.preempt] at hr hw
  simp only [TCPProxy.handle_client, TCPProxyClient.new] at *
  rw [hr]
  simp only []
  rw [hw]
  rfl

/-- C5: the session built by the accept handler is seeded with the
proxy's current default delay timeouts and processors (for both a
successful and a failing upstream connect), and a later `set_delay`
overwrites the delay timeouts of every session active at the moment of
the call — same sessions, same order — and updates the proxy
defaults. -/
theorem session_seeded_and_set_delay_propagates
    (p : TCPProxy) (cid : Nat) (ok : Bool) (rd wd : Rat)
    (h1 : 0 ≤ p.readDelay) (h2 : 0 ≤ p.writeDelay)
    (h3 : 0 ≤ rd) (h4 : 0 ≤ wd) :
    (∃ c : TCPProxyClient,
      (p.handle_client cid ok).1.clients.getLast? = some c ∧
      c.readDelay.timeout = p.readDelay ∧
      c.writeDelay.timeout = p.writeDelay ∧
      c.readProc = ClientProc.ofOpt p.readProcessor ∧
      c.writeProc = ClientProc.ofOpt p.writeProcessor) ∧
    (∃ p' : TCPProxy, p.set_delay rd wd = Except.ok p' ∧
      p'.readDelay = rd ∧ p'.writeDelay = wd ∧
      p'.clients.map TCPProxyClient.id = p.clients.map TCPProxyClient.id ∧
      ∀ c ∈ p'.clients, c.readDelay.timeout = rd ∧ c.writeDelay.timeout = wd) := by
  obtain ⟨-, hrt, hwt, hrp, hwp, -, -⟩ := seededClient_fields p cid
  constructor
  · rw [handle_client_eq p cid ok h1 h2]
    cases ok
    · exact ⟨seededClient p cid, by simp [List.getLast?_concat],
        hrt, hwt, hrp, hwp⟩
    · exact ⟨connectedClient p cid, by simp [List.getLast?_concat],
        hrt, hwt, hrp, hwp⟩
  · refine ⟨_, set_delay_nonneg p rd wd h3 h4, rfl, rfl, ?_, ?_⟩
    · simp [List.map_map, updClientDelays, Function.comp_def]
    · intro c hc
      obtain ⟨c0, -, rfl⟩ := List.mem_map.mp hc
      simp [updClientDelays]

/-- Concrete proxy with nonzero defaults and one active session, used
by the C5 witness. -/
def proxyW : TCPProxy :=
  { targetHost := "t", targetPort := 1, readDelay := 1, writeDelay := 2,
    readProcessor := some 3, clients := [TCPProxyClient.new 0 true] }

/-- Witness for C5: the session accepted by `proxyW` inherits the
nonzero default read delay `1` at creation. -/
theorem session_seeded_and_set_delay_propagates_witness :
    ∃ c : TCPProxyClient,
      (proxyW.handle_client 5 true).1.clients.getLast? = some c ∧
      c.readDelay.timeout = 1 := by
  obtain ⟨⟨c, hl, hr, -⟩, -⟩ :=
    session_seeded_and_set_delay_propagates proxyW 5 true 4 6
      (by norm_num [proxyW]) (by norm_num [proxyW])
      (by norm_num) (by norm_num)
  exact ⟨c, hl, hr.trans rfl⟩

/-- C7: `slowdown` applies the requested delays through `set_delay` —
so the proxy defaults and every active session's delay timeouts carry
the new values for the duration of the block — and its `finally`
restores, again through `set_delay`, the default values recorded at
entry, on both the normal and the exceptional exit of the block. -/
theorem slowdown_sets_and_restores (p : TCPProxy) (rd wd : Rat) (bf : Bool)
    (h1 : 0 ≤ rd) (h2 : 0 ≤ wd)
    (h3 : 0 ≤ p.readDelay) (h4 : 0 ≤ p.writeDelay) :
    ∃ during after : TCPProxy,
      p.slowdown rd wd bf = Except.ok (during, after, bf) ∧
      during.readDelay = rd ∧ during.writeDelay = wd ∧
      (∀ c ∈ during.clients,
        c.readDelay.timeout = rd ∧ c.writeDelay.timeout = wd) ∧
      after.readDelay = p.readDelay ∧ after.writeDelay = p.writeDelay ∧
      (∀ c ∈ after.clients,
        c.readDelay.timeout = p.readDelay ∧
        c.writeDelay.timeout = p.writeDelay) ∧
      after.clients.map TCPProxyClient.id = p.clients.map TCPProxyClient.id := by
  have hd1 := set_delay_eq_result p rd wd h1 h2
  have hd2 := set_delay_eq_result (p.setDelayResult rd wd)
    p.readDelay p.writeDelay h3 h4
  refine ⟨p.setDelayResult rd wd,
    (p.setDelayResult rd wd).setDelayResult p.readDelay p.writeDelay,
    ?_, rfl, rfl, ?_, rfl, rfl, ?_, ?_⟩
  · simp only [TCPProxy.slowdown, hd1, hd2]
  · intro c hc
    simp only [TCPProxy.setDelayResult] at hc
    obtain ⟨c0, -, rfl⟩ := List.mem_map.mp hc
    simp [updClientDelays]
  · intro c hc
    simp only [TCPProxy.setDelayResult, List.map_map] at hc
    obtain ⟨c0, -, rfl⟩ := List.mem_map.mp hc
    simp [updClientDelays, Function.comp_def]
  · simp [TCPProxy.setDelayResult, List.map_map, updClientDelays,
      Function.comp_def]

/-- Witness for C7: slowing `proxyW` down to read delay 5 during the
block and restoring its default 1 afterwards, on the failing exit. -/
theorem slowdown_sets_and_restores_witness :
    ∃ during after : TCPProxy,
      proxyW.slowdown 5 5 true = Except.ok (during, after, true) ∧
      during.readDelay = 5 ∧ after.readDelay = 1 := by
  obtain ⟨during, after, hok, hd, -, -, ha, -⟩ :=
    slowdown_sets_and_restores proxyW 5 5 true (by norm_num) (by norm_num)
      (by norm_num [proxyW]) (by norm_num [proxyW])
  exact ⟨during, after, hok, hd, ha.trans rfl⟩

/-- C8: `disconnect_all` gathers the close of every active session with
`return_exceptions=True`: the returned handle carries exactly one
outcome per active session, every session whose close does not fail
ends up marked closed even when other sessions' closes fail, and a
failure shows up as a collected outcome exactly when some session's
close raised — it never aborts the others. -/
theorem disconnect_all_collects_outcomes (p : TCPProxy) (failAt : Nat → Bool) :
    (p.disconnect_all failAt).2.length = p.clients.length ∧
    (∀ c ∈ p.clients, failAt c.id = false →
      ∃ c' ∈ (p.disconnect_all failAt).1.clients,
        c'.id = c.id ∧ c'.closingDone = true) ∧
    ((Except.error "Exception" : Except String Unit) ∈
        (p.disconnect_all failAt).2 ↔
      ∃ c ∈ p.clients, failAt c.id = true) := by
  refine ⟨?_, ?_, ?_⟩
  · simp [TCPProxy.disconnect_all]
  · intro c hc hf
    refine ⟨(TCPProxyClient.close c).1, ?_, close_fst_id c,
      close_fst_closingDone c⟩
    simp only [TCPProxy.disconnect_all, List.map_map]
    exact List.mem_map.mpr ⟨c, hc, by simp [Function.comp_def, hf]⟩
  · simp only [TCPProxy.disconnect_all, List.map_map]
    rw [List.mem_map]
    constructor
    · rintro ⟨c, hc, heq⟩
      refine ⟨c, hc, ?_⟩
      by_cases hf : failAt c.id
      · exact hf
      · simp [Function.comp_def, hf] at heq
    · rintro ⟨c, hc, hf⟩
      exact ⟨c, hc, by simp [Function.comp_def, hf]⟩

/-- Concrete proxy with two active sessions, used by the C8 witness. -/
def proxyD : TCPProxy :=
  { targetHost := "t", targetPort := 1,
    clients := [TCPProxyClient.new 0 true, TCPProxyClient.new 1 true] }

/-- Witness for C8: session 0's close fails, yet session 1 is closed. -/
theorem disconnect_all_collects_outcomes_witness :
    ∃ c' ∈ (proxyD.disconnect_all fun n => n == 0).1.clients,
      c'.id = 1 ∧ c'.closingDone = true := by
  have h := (disconnect_all_collects_outcomes proxyD fun n => n == 0).2.1
    (TCPProxyClient.new 1 true) (by simp [proxyD]) (by decide)
  obtain ⟨c', hm, hid, hcd⟩ := h
  exact ⟨c', hm, hid.trans rfl, hcd⟩

/-- C10: when the upstream connect of the accept handler raises, the
exception escapes after the session was added to the active set but
before the removal done-callback was registered; the session therefore
stays in the active set, and even resolving its closing future through
a later `close()` and firing all registered done callbacks does not
remove it. -/
theorem failed_connect_leaks_client (p : TCPProxy) (cid : Nat)
    (h1 : 0 ≤ p.readDelay) (h2 : 0 ≤ p.writeDelay) :
    (p.handle_client cid false).2 = some "ConnectionError" ∧
    (∃ c : TCPProxyClient,
      (p.handle_client cid false).1.clients.getLast? = some c ∧
      c.id = cid ∧ c.removeCallback = false) ∧
    (∃ c' : TCPProxyClient,
      (((p.handle_client cid false).1.closeClient cid
        ).runDoneCallbacks).clients.getLast? = some c' ∧
      c'.id = cid ∧ c'.closingDone = true ∧ c'.removeCallback = false) := by
  obtain ⟨hid, -, -, -, -, hcd, hrc⟩ := seededClient_fields p cid
  have heq := handle_client_eq p cid false h1 h2
  simp only [Bool.false_eq_true, if_false] at heq
  refine ⟨by rw [heq], ?_, ?_⟩
  · exact ⟨seededClient p cid, by rw [heq]; simp [List.getLast?_concat],
      hid, hrc⟩
  · refine ⟨(TCPProxyClient.close (seededClient p cid)).1, ?_,
      by rw [close_fst_id, hid], close_fst_closingDone _,
      by rw [close_fst_removeCallback, hrc]⟩
    rw [heq]
    simp only [TCPProxy.closeClient, TCPProxy.runDoneCallbacks,
      List.map_append, List.filter_append, List.map_cons, List.map_nil,
      hid, if_pos]
    rw [List.filter_cons]
    simp only [close_fst_closingDone, close_fst_removeCallback, hrc,
      Bool.and_false, Bool.not_false, if_pos, List.filter_nil]
    exact List.getLast?_concat _

/-- Proxy with zero defaults and no sessions, used by the C10 witness. -/
def proxyF : TCPProxy := { targetHost := "t", targetPort := 1 }

/-- Witness for C10: a failing connect at `proxyF` raises a connection
error and leaves the session in the active set without callback. -/
theorem failed_connect_leaks_client_witness :
    (proxyF.handle_client 42 false).2 = some "ConnectionError" ∧
    ∃ c : TCPProxyClient,
      (proxyF.handle_client 42 false).1.clients.getLast? = some c ∧
      c.id = 42 ∧ c.removeCallback = false :=
  ⟨(failed_connect_leaks_client proxyF 42 (by norm_num [proxyF])
      (by norm_num [proxyF])).1,
   (failed_connect_leaks_client proxyF 42 (by norm_num [proxyF])
      (by norm_num [proxyF])).2.1⟩

end AiomiscPytest
